import Mathlib

/-
Verification of the secure-vault client core (js/vault.js, js/auth.js and
their localized duplicates).  JavaScript strings are modelled as lists of
characters; the Supabase record store is modelled by the list of records a
load returns; the external crypto module (js/crypto.js, not part of the
sources verified here) is abstracted by the success/failure function the
vault code observes through its try/catch.
-/

namespace SecureVault

/-- JavaScript strings, modelled as lists of characters. -/
abbrev JStr := List Char

/-- Model of JavaScript String.prototype.split with a one-character
separator: always returns at least one chunk, the empty string splits to a
single empty chunk. -/
def splitCh (sep : Char) : JStr → List JStr
  | [] => [[]]
  | c :: cs =>
    if c = sep then [] :: splitCh sep cs
    else
      match splitCh sep cs with
      | [] => [[c]]
      | t :: ts => (c :: t) :: ts

theorem splitCh_ne_nil (sep : Char) (l : JStr) : splitCh sep l ≠ [] := by
  induction l with
  | nil => simp [splitCh]
  | cons c cs ih =>
    simp only [splitCh]
    split
    · simp
    · split
      · simp
      · simp

theorem splitCh_no_sep (sep : Char) (l : JStr) (h : sep ∉ l) :
    splitCh sep l = [l] := by
  induction l with
  | nil => rfl
  | cons c cs ih =>
    have hc : c ≠ sep := fun hceq => h (hceq ▸ List.mem_cons_self c cs)
    have hcs : sep ∉ cs := fun hmem => h (List.mem_cons_of_mem c hmem)
    simp only [splitCh, if_neg hc, ih hcs]

theorem splitCh_append (sep : Char) (a b : JStr) (ha : sep ∉ a) :
    splitCh sep (a ++ sep :: b) = a :: splitCh sep b := by
  induction a with
  | nil => simp [splitCh]
  | cons c cs ih =>
    have hc : c ≠ sep := fun hceq => ha (hceq ▸ List.mem_cons_self c cs)
    have hcs : sep ∉ cs := fun hmem => ha (List.mem_cons_of_mem c hmem)
    simp only [List.cons_append, splitCh, if_neg hc, List.append_eq, ih hcs]

/-- A record row as loaded from the `passwords` table: the encrypted
password, the packed `iv` field, and the plaintext metadata columns. -/
structure PasswordRec where
  encrypted_password : JStr
  iv : JStr
  site_name : JStr
  username : JStr
  site_url : Option JStr
  notes : Option JStr
  deriving Repr, DecidableEq

/-- The destructuring `const [ivBase64, saltBase64] = field.split(':')`
used by handleUnlock and showPasswordAction: the first chunk, and the
second chunk when present (absent models the JS `undefined`). -/
def parseIvField (s : JStr) : JStr × Option JStr :=
  match splitCh ':' s with
  | [] => ([], none)
  | [a] => (a, none)
  | a :: b :: _ => (a, some b)

/-- In-memory module state of vault.js: the master password closure
variable, the loaded record list, the selected vault, and the
sessionStorage `vaultUnlocked` flag. -/
structure VaultState where
  masterPassword : Option JStr
  passwords : List PasswordRec
  currentVaultId : Option JStr
  currentVaultName : JStr
  vaultUnlocked : Bool
  deriving Repr, DecidableEq

/-- The spec's accessor "is a secret currently available for
encrypt/decrypt calls": vault.js gates showPasswordAction on
`if (!masterPassword)`, so the session is Unlocked exactly when the
masterPassword variable is non-null. -/
def isUnlocked (st : VaultState) : Bool := st.masterPassword.isSome

/-- Caller-visible effects of one handleUnlock run: the record load, the
verification decrypt attempt, and the messages shown. -/
inductive UnlockEvent where
  | loadedRecords
  | decryptAttempt
  | emptyPrompt
  | incorrectSecret
  | unlockedToast
  deriving Repr, DecidableEq

/-- Success/failure behaviour of the external crypto.decrypt call as
observed by handleUnlock through its try/catch, on arguments
(encrypted, ivBase64, saltBase64-or-undefined, masterPassword variable,
possibly null). -/
abbrev DecOk := JStr → JStr → Option JStr → Option JStr → Bool

/-- Transcription of handleUnlock (vault.js lines 515-561): reject an
empty candidate, otherwise store it in masterPassword, load the records,
and when a first record exists verify the candidate by decrypting it,
resetting masterPassword to null and reporting an incorrect-secret error
on failure, or setting the sessionStorage flag on success. -/
def handleUnlock (dec : DecOk) (mp : JStr) (db : List PasswordRec)
    (st : VaultState) : VaultState × List UnlockEvent :=
  if mp = [] then
    (st, [.emptyPrompt])
  else
    let st1 : VaultState := { st with masterPassword := some mp }
    let st2 : VaultState := { st1 with passwords := db }
    match db with
    | [] =>
      ({ st2 with vaultUnlocked := true },
       [.loadedRecords, .unlockedToast])
    | item :: _ =>
      let p := parseIvField item.iv
      if dec item.encrypted_password p.1 p.2 st2.masterPassword then
        ({ st2 with vaultUnlocked := true },
         [.loadedRecords, .decryptAttempt, .unlockedToast])
      else
        ({ st2 with masterPassword := none },
         [.loadedRecords, .decryptAttempt, .incorrectSecret])

/-- Transcription of handleLock (vault.js lines 905-914): null the master
password, clear the record list and the vault selection.  The
sessionStorage `vaultUnlocked` flag is not touched by handleLock. -/
def handleLock (st : VaultState) : VaultState :=
  { st with masterPassword := none, passwords := [],
            currentVaultId := none, currentVaultName := [] }

/-- Transcription of the state effect of handleLogout (vault.js lines
916-927): sessionStorage.removeItem clears the `vaultUnlocked` flag. -/
def handleLogout (st : VaultState) : VaultState :=
  { st with vaultUnlocked := false }

/-- Result object returned by the external crypto.encrypt call:
`{ encrypted, iv, salt }`, the iv and salt being base64 text. -/
structure EncResult where
  encrypted : JStr
  iv : JStr
  salt : JStr
  deriving Repr, DecidableEq

/-- Plaintext-returning behaviour of the external crypto.decrypt call on
arguments (encrypted, ivBase64, saltBase64-or-undefined, secret). -/
abbrev Decrypt := JStr → JStr → Option JStr → JStr → Option JStr

/-- Packing done by handleSavePassword (vault.js line 756):
`passwordData.iv = encryptedData.iv + ':' + encryptedData.salt`. -/
def packIvField (e : EncResult) : JStr := e.iv ++ ':' :: e.salt

/-- Record row built by handleSavePassword (vault.js lines 740-757) from
an encryption result and the plaintext metadata fields. -/
def savedRecord (e : EncResult) (site user : JStr) : PasswordRec :=
  { encrypted_password := e.encrypted
    iv := packIvField e
    site_name := site
    username := user
    site_url := none
    notes := none }

/-- Decryption path of showPasswordAction (vault.js lines 849-857): split
the packed iv field on a colon and hand the parts to crypto.decrypt with
the held master password. -/
def showPassword (dec : Decrypt) (item : PasswordRec) (mp : JStr) :
    Option JStr :=
  let p := parseIvField item.iv
  dec item.encrypted_password p.1 p.2 mp

/-- Character-class test `/[A-Z]/.test(password)`. -/
def hasUpper (p : JStr) : Bool := p.any fun c => 'A' ≤ c && c ≤ 'Z'

/-- Character-class test `/[a-z]/.test(password)`. -/
def hasLower (p : JStr) : Bool := p.any fun c => 'a' ≤ c && c ≤ 'z'

/-- Character-class test `/[0-9]/.test(password)`. -/
def hasDigit (p : JStr) : Bool := p.any fun c => '0' ≤ c && c ≤ '9'

/-- Membership in the character class `[A-Za-z0-9]`. -/
def isAlnum (c : Char) : Bool :=
  ('A' ≤ c && c ≤ 'Z') || ('a' ≤ c && c ≤ 'z') || ('0' ≤ c && c ≤ '9')

/-- Character-class test `/[^A-Za-z0-9]/.test(password)`. -/
def hasSymbol (p : JStr) : Bool := p.any fun c => !(isAlnum c)

/-- Point accumulation of updateNewVaultPasswordStrength (vault.js lines
441-445) and updatePasswordStrength (localized auth module lines
325-329): one point for length at least 8 and one for each of an
uppercase letter, a digit and a non-alphanumeric character. -/
def strengthScore (password : JStr) : Nat :=
  let s0 : Nat := 0
  let s1 := if 8 ≤ password.length then s0 + 1 else s0
  let s2 := if hasUpper password then s1 + 1 else s1
  let s3 := if hasDigit password then s2 + 1 else s2
  let s4 := if hasSymbol password then s3 + 1 else s3
  s4

/-- Label column of the strengthLevels lookup table (vault.js lines
447-453); the table has entries only for point totals 0 through 4. -/
def strengthLabel : Nat → Option String
  | 0 => some ""
  | 1 => some "Weak"
  | 2 => some "Fair"
  | 3 => some "Strong"
  | 4 => some "Very Strong"
  | _ => none

/-- Scoring rule as the specification states it, for comparison with the
implemented scorer: one point for each satisfied length threshold (at
least 8, 12, 16 and 20) and one point for the presence of each of the
four character classes. -/
def specClaimPoints (password : JStr) : Nat :=
  (if 8 ≤ password.length then 1 else 0) +
  (if 12 ≤ password.length then 1 else 0) +
  (if 16 ≤ password.length then 1 else 0) +
  (if 20 ≤ password.length then 1 else 0) +
  (if hasLower password then 1 else 0) +
  (if hasUpper password then 1 else 0) +
  (if hasDigit password then 1 else 0) +
  (if hasSymbol password then 1 else 0)

/-- Sum-of-indicators characterization of the implemented scorer. -/
theorem strengthScore_eq (p : JStr) :
    strengthScore p =
      (if 8 ≤ p.length then 1 else 0) + (if hasUpper p then 1 else 0) +
      (if hasDigit p then 1 else 0) + (if hasSymbol p then 1 else 0) := by
  simp only [strengthScore]
  split_ifs <;> omega

/-
Interleaving model for concurrent handleUnlock calls.  Each call is an
async function that suspends at its await points (the record load and the
verification decrypt); the segments between suspension points run
atomically over the shared module state.  The message vocabulary includes
a busy rejection so that the specified behaviour is expressible.
-/

/-- Messages a single handleUnlock call can surface to its caller. -/
inductive UMsg where
  | emptyPrompt
  | incorrectSecret
  | unlocked
  | busy
  deriving Repr, DecidableEq

/-- Program counter of one in-flight handleUnlock call: before entry,
awaiting the record load, awaiting/performing verification, finished. -/
inductive UPc where
  | entry
  | loading
  | verifying
  | done
  deriving Repr, DecidableEq

/-- One in-flight handleUnlock call: its position, its candidate secret,
and the messages it has surfaced. -/
structure UProc where
  pc : UPc
  candidate : JStr
  msgs : List UMsg
  deriving Repr, DecidableEq

/-- The module state shared by concurrent handleUnlock calls. -/
structure Shared where
  masterPassword : Option JStr
  passwords : List PasswordRec
  vaultUnlocked : Bool
  deriving Repr, DecidableEq

/-- Run the next atomic segment of one handleUnlock call.  Entry
validates the candidate and stores it in the shared masterPassword
variable; the load segment overwrites the shared record list; the
verification segment reads the first record and the shared masterPassword
variable (not the call's own candidate), exactly as the source does. -/
def stepProc (dec : DecOk) (db : List PasswordRec) :
    Shared × UProc → Shared × UProc
  | (sh, pr) =>
    match pr.pc with
    | .entry =>
      if pr.candidate = [] then
        (sh, { pr with pc := .done, msgs := pr.msgs ++ [.emptyPrompt] })
      else
        ({ sh with masterPassword := some pr.candidate },
         { pr with pc := .loading })
    | .loading =>
      ({ sh with passwords := db }, { pr with pc := .verifying })
    | .verifying =>
      match sh.passwords with
      | [] =>
        ({ sh with vaultUnlocked := true },
         { pr with pc := .done, msgs := pr.msgs ++ [.unlocked] })
      | item :: _ =>
        let p := parseIvField item.iv
        if dec item.encrypted_password p.1 p.2 sh.masterPassword then
          ({ sh with vaultUnlocked := true },
           { pr with pc := .done, msgs := pr.msgs ++ [.unlocked] })
        else
          ({ sh with masterPassword := none },
           { pr with pc := .done, msgs := pr.msgs ++ [.incorrectSecret] })
    | .done => (sh, pr)

/-- A pair of handleUnlock calls over one shared module state. -/
structure TwoCalls where
  shared : Shared
  first : UProc
  second : UProc
  deriving Repr, DecidableEq

/-- Run one atomic segment of the chosen call (true picks the first). -/
def stepTwo (dec : DecOk) (db : List PasswordRec) (w : TwoCalls)
    (pick : Bool) : TwoCalls :=
  if pick then
    let r := stepProc dec db (w.shared, w.first)
    { w with shared := r.1, first := r.2 }
  else
    let r := stepProc dec db (w.shared, w.second)
    { w with shared := r.1, second := r.2 }

/-- Run a whole interleaving schedule over the pair of calls. -/
def runSchedule (dec : DecOk) (db : List PasswordRec) (w : TwoCalls) :
    List Bool → TwoCalls
  | [] => w
  | b :: bs => runSchedule dec db (stepTwo dec db w b) bs

/-- Both calls started at their entry points with no messages yet. -/
def initCalls (c1 c2 : JStr) (sh : Shared) : TwoCalls :=
  { shared := sh
    first := { pc := .entry, candidate := c1, msgs := [] }
    second := { pc := .entry, candidate := c2, msgs := [] } }

/-
Concrete sample data used to instantiate the theorems.
-/

/-- A decrypt stub that always fails the integrity check. -/
def decAlwaysFail : DecOk := fun _ _ _ _ => false

/-- A sample stored record with a packed iv field. -/
def sampleItem : PasswordRec :=
  { encrypted_password := ['e']
    iv := ['i', ':', 's']
    site_name := ['n']
    username := ['u']
    site_url := some ['w']
    notes := some ['t'] }

/-- A freshly loaded, locked session with a vault selected. -/
def lockedStart : VaultState :=
  { masterPassword := none
    passwords := []
    currentVaultId := some ['v']
    currentVaultName := ['v']
    vaultUnlocked := false }

/-
Theorems for the frozen claims.
-/

/-- C1: for every non-empty vault and candidate secret, if decrypting the
sample (first stored) record with the candidate fails, handleUnlock
leaves the session Locked, resets the held master password to null, and
reports the incorrect-secret error. -/
theorem C1_unlock_wrong_secret_locks (dec : DecOk) (mp : JStr)
    (item : PasswordRec) (rest : List PasswordRec) (st : VaultState)
    (hmp : mp ≠ [])
    (hfail : dec item.encrypted_password (parseIvField item.iv).1
        (parseIvField item.iv).2 (some mp) = false) :
    (handleUnlock dec mp (item :: rest) st).1.masterPassword = none ∧
    isUnlocked (handleUnlock dec mp (item :: rest) st).1 = false ∧
    UnlockEvent.incorrectSecret ∈ (handleUnlock dec mp (item :: rest) st).2 := by
  simp [handleUnlock, hmp, hfail, isUnlocked]

theorem C1_unlock_wrong_secret_locks_witness :
    (['x'] : JStr) ≠ [] ∧
    ((handleUnlock decAlwaysFail ['x'] [sampleItem] lockedStart).1.masterPassword
        = none ∧
     isUnlocked (handleUnlock decAlwaysFail ['x'] [sampleItem] lockedStart).1
        = false ∧
     UnlockEvent.incorrectSecret ∈
       (handleUnlock decAlwaysFail ['x'] [sampleItem] lockedStart).2) :=
  ⟨by decide,
   C1_unlock_wrong_secret_locks decAlwaysFail ['x'] sampleItem [] lockedStart
     (by decide) (by decide)⟩

/-- C2: for every non-empty candidate, on an empty vault handleUnlock
performs no decryption, goes directly to Unlocked (sessionStorage flag
set) and retains the candidate as the held master password. -/
theorem C2_unlock_empty_vault_accepts (dec : DecOk) (mp : JStr)
    (st : VaultState) (hmp : mp ≠ []) :
    (handleUnlock dec mp [] st).1.masterPassword = some mp ∧
    isUnlocked (handleUnlock dec mp [] st).1 = true ∧
    (handleUnlock dec mp [] st).1.vaultUnlocked = true ∧
    (handleUnlock dec mp [] st).2
        = [UnlockEvent.loadedRecords, UnlockEvent.unlockedToast] ∧
    UnlockEvent.decryptAttempt ∉ (handleUnlock dec mp [] st).2 := by
  refine ⟨?_, ?_, ?_, ?_, ?_⟩ <;> simp [handleUnlock, hmp, isUnlocked]

theorem C2_unlock_empty_vault_accepts_witness :
    (['a'] : JStr) ≠ [] ∧
    ((handleUnlock decAlwaysFail ['a'] [] lockedStart).1.masterPassword
        = some ['a'] ∧
     isUnlocked (handleUnlock decAlwaysFail ['a'] [] lockedStart).1 = true ∧
     (handleUnlock decAlwaysFail ['a'] [] lockedStart).1.vaultUnlocked = true ∧
     (handleUnlock decAlwaysFail ['a'] [] lockedStart).2
        = [UnlockEvent.loadedRecords, UnlockEvent.unlockedToast] ∧
     UnlockEvent.decryptAttempt ∉
       (handleUnlock decAlwaysFail ['a'] [] lockedStart).2) :=
  ⟨by decide, C2_unlock_empty_vault_accepts decAlwaysFail ['a'] lockedStart
    (by decide)⟩

/-- C9: when unlock verification fails, only the master password is
reset: the record list loaded before verification, with its encrypted
passwords and plaintext site names, usernames, URLs and notes, stays
populated in the session state although the session is Locked. -/
theorem C9_failed_unlock_keeps_records (dec : DecOk) (mp : JStr)
    (item : PasswordRec) (rest : List PasswordRec) (st : VaultState)
    (hmp : mp ≠ [])
    (hfail : dec item.encrypted_password (parseIvField item.iv).1
        (parseIvField item.iv).2 (some mp) = false) :
    (handleUnlock dec mp (item :: rest) st).1.passwords = item :: rest ∧
    (handleUnlock dec mp (item :: rest) st).1.passwords ≠ [] ∧
    (handleUnlock dec mp (item :: rest) st).1.masterPassword = none := by
  refine ⟨?_, ?_, ?_⟩ <;> simp [handleUnlock, hmp, hfail]

theorem C9_failed_unlock_keeps_records_witness :
    (['x'] : JStr) ≠ [] ∧
    ((handleUnlock decAlwaysFail ['x'] [sampleItem] lockedStart).1.passwords
        = [sampleItem] ∧
     (handleUnlock decAlwaysFail ['x'] [sampleItem] lockedStart).1.passwords
        ≠ [] ∧
     (handleUnlock decAlwaysFail ['x'] [sampleItem] lockedStart).1.masterPassword
        = none) :=
  ⟨by decide,
   C9_failed_unlock_keeps_records decAlwaysFail ['x'] sampleItem [] lockedStart
     (by decide) (by decide)⟩

/-- C10: for the empty candidate secret, handleUnlock reports the
empty-prompt error and returns with the state untouched; the emitted
events show no record load and no decryption attempt. -/
theorem C10_empty_candidate_is_noop (dec : DecOk) (db : List PasswordRec)
    (st : VaultState) :
    handleUnlock dec [] db st = (st, [UnlockEvent.emptyPrompt]) := by
  simp [handleUnlock]

/-- C4: lock always yields the Locked state with no held master
password; it is idempotent on the whole module state; and when the
session is already Locked it leaves the session view (held secret and
secret availability) unchanged. -/
theorem C4_lock_idempotent (st : VaultState) :
    (handleLock st).masterPassword = none ∧
    isUnlocked (handleLock st) = false ∧
    handleLock (handleLock st) = handleLock st ∧
    (st.masterPassword = none →
      (handleLock st).masterPassword = st.masterPassword ∧
      isUnlocked (handleLock st) = isUnlocked st) := by
  refine ⟨rfl, rfl, rfl, fun h => ⟨?_, ?_⟩⟩ <;>
    simp [handleLock, isUnlocked, h]

theorem C4_lock_idempotent_witness :
    ((handleLock lockedStart).masterPassword = none ∧
     isUnlocked (handleLock lockedStart) = false ∧
     handleLock (handleLock lockedStart) = handleLock lockedStart ∧
     (handleLock lockedStart).masterPassword = lockedStart.masterPassword ∧
     isUnlocked (handleLock lockedStart) = isUnlocked lockedStart) := by
  have h := C4_lock_idempotent lockedStart
  have h4 := h.2.2.2 (by decide)
  exact ⟨h.1, h.2.1, h.2.2.1, h4.1, h4.2⟩

/-- C5: after a successful unlock of an empty vault followed by
handleLock, the held master password is discarded and the session is
Locked, yet the sessionStorage vaultUnlocked flag still reads true:
handleLock never clears the flag, so in this reachable state the
indicator is not equivalent to the Unlocked state. -/
theorem C5_flag_survives_lock :
    (handleLock
        (handleUnlock decAlwaysFail ['p', 'w'] [] lockedStart).1).masterPassword
      = none ∧
    isUnlocked (handleLock
        (handleUnlock decAlwaysFail ['p', 'w'] [] lockedStart).1) = false ∧
    (handleLock
        (handleUnlock decAlwaysFail ['p', 'w'] [] lockedStart).1).vaultUnlocked
      = true := by
  decide

/-- Splitting the packed iv field of a saved record recovers the iv and
the salt, provided neither contains a colon (base64 text never does). -/
theorem parseIvField_packIvField (e : EncResult)
    (hiv : ':' ∉ e.iv) (hsalt : ':' ∉ e.salt) :
    parseIvField (packIvField e) = (e.iv, some e.salt) := by
  unfold parseIvField packIvField
  rw [splitCh_append ':' e.iv e.salt hiv, splitCh_no_sep ':' e.salt hsalt]

/-- C3: for every plaintext and secret, packing the encryption result's
iv and salt into one colon-separated field as handleSavePassword does,
then splitting that field and decrypting as showPasswordAction does with
the same secret, returns exactly the plaintext — assuming the platform
primitive round-trips on the record it produced, and that the iv and salt
are base64 text (hence colon-free). -/
theorem C3_save_show_roundtrip (dec : Decrypt) (e : EncResult)
    (s p site user : JStr)
    (hiv : ':' ∉ e.iv) (hsalt : ':' ∉ e.salt)
    (hrt : dec e.encrypted e.iv (some e.salt) s = some p) :
    showPassword dec (savedRecord e site user) s = some p := by
  unfold showPassword savedRecord
  simp only [parseIvField_packIvField e hiv hsalt]
  exact hrt

theorem C3_save_show_roundtrip_witness :
    ((':' ∉ (['i'] : JStr)) ∧ (':' ∉ (['s'] : JStr)) ∧
     ((fun (c : JStr) _ _ _ => some c) (['h', 'i'] : JStr) ['i']
        (some ['s']) ['k'] = some (['h', 'i'] : JStr)) ∧
     showPassword (fun c _ _ _ => some c)
       (savedRecord { encrypted := ['h', 'i'], iv := ['i'], salt := ['s'] }
         ['n'] ['u']) ['k'] = some ['h', 'i']) :=
  ⟨by decide, by decide, rfl,
   C3_save_show_roundtrip (fun c _ _ _ => some c)
     { encrypted := ['h', 'i'], iv := ['i'], salt := ['s'] }
     ['k'] ['h', 'i'] ['n'] ['u'] (by decide) (by decide) rfl⟩

/-- C7 counterexample: the implemented scorer is not a function of the
point total described by the claim (length thresholds 8/12/16/20 plus all
four character classes): eight lowercase letters and eight uppercase
letters both earn two claimed points, yet the code scores them 1 and 2. -/
theorem C7_counterexample_strength_rule :
    ¬ ∃ f : Nat → Nat, ∀ p : JStr, strengthScore p = f (specClaimPoints p) := by
  rintro ⟨f, hf⟩
  have h1 := hf (List.replicate 8 'a')
  have h2 := hf (List.replicate 8 'A')
  rw [show specClaimPoints (List.replicate 8 'a') = 2 from by decide,
      show strengthScore (List.replicate 8 'a') = 1 from by decide] at h1
  rw [show specClaimPoints (List.replicate 8 'A') = 2 from by decide,
      show strengthScore (List.replicate 8 'A') = 2 from by decide] at h2
  omega

/-- C7 amended: the implemented scorer awards one point for length at
least 8 and one for each of uppercase, digit and symbol presence —
lowercase letters and the higher length thresholds contribute nothing —
for a total of at most 4, and every reachable total has an entry in the
five-row strengthLevels label table. -/
theorem C7_strength_rule_amended (p : JStr) :
    strengthScore p =
      (if 8 ≤ p.length then 1 else 0) + (if hasUpper p then 1 else 0) +
      (if hasDigit p then 1 else 0) + (if hasSymbol p then 1 else 0) ∧
    strengthScore p ≤ 4 ∧
    (strengthLabel (strengthScore p)).isSome = true := by
  refine ⟨strengthScore_eq p, ?_, ?_⟩
  · rw [strengthScore_eq]
    split_ifs <;> omega
  · have h4 : strengthScore p ≤ 4 := by
      rw [strengthScore_eq]; split_ifs <;> omega
    interval_cases h : strengthScore p <;> rfl

/-- C8: for passwords of equal length, when the second password exhibits
every character class the first does, the implemented strength score of
the second is at least that of the first (the claim's premise — the
second adds one previously-absent class — implies these hypotheses). -/
theorem C8_score_monotone_in_classes (p1 p2 : JStr)
    (hlen : p1.length = p2.length)
    (hl : hasLower p1 = true → hasLower p2 = true)
    (hu : hasUpper p1 = true → hasUpper p2 = true)
    (hd : hasDigit p1 = true → hasDigit p2 = true)
    (hs : hasSymbol p1 = true → hasSymbol p2 = true) :
    strengthScore p1 ≤ strengthScore p2 := by
  rw [strengthScore_eq, strengthScore_eq, hlen]
  have mono : ∀ a b : Bool, (a = true → b = true) →
      (if a then 1 else 0) ≤ (if b then 1 else 0) := by
    intro a b hab
    cases a with
    | false => simp
    | true => rw [hab rfl]
  have h1 := mono _ _ hu
  have h2 := mono _ _ hd
  have h3 := mono _ _ hs
  omega

theorem C8_score_monotone_in_classes_witness :
    ((List.replicate 8 'a' : JStr).length
        = ('A' :: List.replicate 7 'a' : JStr).length ∧
     strengthScore (List.replicate 8 'a')
        ≤ strengthScore ('A' :: List.replicate 7 'a')) :=
  ⟨by decide,
   C8_score_monotone_in_classes (List.replicate 8 'a')
     ('A' :: List.replicate 7 'a') (by decide) (by decide) (by decide)
     (by decide) (by decide)⟩

/-- A model cipher for the concurrency runs: the encrypted field records
the secret it was produced under, and decryption succeeds exactly when
the supplied secret matches it. -/
def decByKey : DecOk := fun enc _ _ sec => sec == some enc

/-- A one-record vault whose sample record was encrypted under the
secret "a". -/
def raceDb : List PasswordRec :=
  [{ encrypted_password := ['a']
     iv := ['i', ':', 's']
     site_name := ['n']
     username := ['u']
     site_url := none
     notes := none }]

/-- Shared module state before any unlock call. -/
def raceShared : Shared :=
  { masterPassword := none, passwords := [], vaultUnlocked := false }

/-- C6 counterexample: first call with the correct secret "a", second
call with "b" entering while the first awaits its verification decrypt.
The second call is not rejected — it reports an incorrect-secret error,
never a busy rejection — and it races with the first: by overwriting the
shared masterPassword variable it flips the first call's outcome from
the success it reaches when run alone to an incorrect-secret failure. -/
theorem C6_counterexample_no_busy_rejection :
    ((runSchedule decByKey raceDb (initCalls ['a'] ['b'] raceShared)
        [true, true, false, true, false, false]).second.msgs
      = [UMsg.incorrectSecret] ∧
     UMsg.busy ∉
       (runSchedule decByKey raceDb (initCalls ['a'] ['b'] raceShared)
         [true, true, false, true, false, false]).second.msgs ∧
     (runSchedule decByKey raceDb (initCalls ['a'] ['b'] raceShared)
        [true, true, false, true, false, false]).first.msgs
      = [UMsg.incorrectSecret] ∧
     (runSchedule decByKey raceDb (initCalls ['a'] ['b'] raceShared)
        [true, true, true]).first.msgs = [UMsg.unlocked]) := by
  decide

/-- Helper: one segment of an unlock call never surfaces a busy
rejection. -/
theorem stepProc_no_busy (dec : DecOk) (db : List PasswordRec)
    (sh : Shared) (pr : UProc) (h : UMsg.busy ∉ pr.msgs) :
    UMsg.busy ∉ (stepProc dec db (sh, pr)).2.msgs := by
  unfold stepProc
  rcases pr with ⟨pc, cand, msgs⟩
  cases pc <;> simp only []
  · split
    · simp only [List.mem_append, List.mem_singleton]
      rintro (hm | hm)
      · exact h hm
      · cases hm
    · exact h
  · exact h
  · split
    · simp only [List.mem_append, List.mem_singleton]
      rintro (hm | hm)
      · exact h hm
      · cases hm
    · split
      · simp only [List.mem_append, List.mem_singleton]
        rintro (hm | hm)
        · exact h hm
        · cases hm
      · simp only [List.mem_append, List.mem_singleton]
        rintro (hm | hm)
        · exact h hm
        · cases hm
  · exact h

/-- Helper: no interleaving of the two calls ever surfaces a busy
rejection, starting from any pair state without one. -/
theorem runSchedule_no_busy (dec : DecOk) (db : List PasswordRec)
    (sched : List Bool) (w : TwoCalls)
    (h1 : UMsg.busy ∉ w.first.msgs) (h2 : UMsg.busy ∉ w.second.msgs) :
    UMsg.busy ∉ (runSchedule dec db w sched).first.msgs ∧
    UMsg.busy ∉ (runSchedule dec db w sched).second.msgs := by
  induction sched generalizing w with
  | nil => exact ⟨h1, h2⟩
  | cons b bs ih =>
    apply ih
    · cases b with
      | true => exact stepProc_no_busy dec db w.shared w.first h1
      | false => exact h1
    · cases b with
      | true => exact h2
      | false => exact stepProc_no_busy dec db w.shared w.second h2


/-- C6 amended: handleUnlock has no in-flight guard: whatever the cipher,
vault contents and interleaving, a second unlock call issued while the
first is in flight is never rejected with a busy error (neither call ever
surfaces one); instead both calls run their segments over the shared
masterPassword variable, so the second can alter the first's outcome. -/
theorem C6_no_inflight_guard (dec : DecOk) (db : List PasswordRec)
    (c1 c2 : JStr) (sh : Shared) (sched : List Bool) :
    UMsg.busy ∉
      (runSchedule dec db (initCalls c1 c2 sh) sched).first.msgs ∧
    UMsg.busy ∉
      (runSchedule dec db (initCalls c1 c2 sh) sched).second.msgs :=
  runSchedule_no_busy dec db sched (initCalls c1 c2 sh)
    (by simp [initCalls]) (by simp [initCalls])

end SecureVault
